import Mathlib

/-!
# EcoFinds — shallow embedding and verification

This file embeds the persistent data model and the request handlers of the
two EcoFinds application variants, and proves or refutes the frozen claims
about them.

* `EcoFinds.V1` models `src/app.py`: the variant whose cart is keyed to an
  authenticated user row (`CartItem` table), with integer rupee prices.
* `EcoFinds.V2` models `src/ecofinds-backend/app.py`: the variant whose cart
  lives in the session as a list of dicts holding a price snapshot taken at
  add-to-cart time; prices are decimal amounts, modelled as rationals.

Handlers are embedded as pure functions `args → DB → Option Err × DB`:
the returned `Option Err` is the flashed error category (`none` = success
path), and the returned `DB` is the persistent state after the request.
On every error path the handler redirects without committing, so the state
component is returned unchanged, matching the rollback-on-teardown
behaviour of the framework session.
-/

namespace EcoFinds

/-- Error categories a handler can flash before redirecting. -/
inductive Err where
  | notFound
  | validationError
  | notOwner
  | emptyCart
deriving DecidableEq, Repr

/-- Whitespace characters stripped by Python's `str.strip` and `int`. -/
def isPySpace (c : Char) : Bool :=
  c == ' ' || c == '\t' || c == '\n' || c == '\r' || c.toNat == 11 || c.toNat == 12

/-- Python's `s.strip()`: drop whitespace from both ends. -/
def pyStrip (s : String) : String :=
  ⟨((s.data.dropWhile isPySpace).reverse.dropWhile isPySpace).reverse⟩

namespace V1

/-- `CATEGORIES` from `src/app.py`. -/
def CATEGORIES : List String :=
  ["Electronics", "Home & Kitchen", "Books", "Fashion", "Sports", "Toys", "Other"]

/-- A row of the `product` table (`src/app.py`, class `Product`). -/
structure Product where
  id : Nat
  title : String
  description : String
  category : String
  price_rupees : Int
  image_url : Option String
  seller_id : Nat
deriving DecidableEq, Repr

/-- A row of the `cart_item` table (`src/app.py`, class `CartItem`). -/
structure CartItem where
  id : Nat
  user_id : Nat
  product_id : Nat
  quantity : Int
deriving DecidableEq, Repr

/-- A row of the `order` table (`src/app.py`, class `Order`). -/
structure Order where
  id : Nat
  user_id : Nat
deriving DecidableEq, Repr

/-- A row of the `order_item` table (`src/app.py`, class `OrderItem`).
`title` and `price_rupees` are the snapshot columns. -/
structure OrderItem where
  id : Nat
  order_id : Nat
  product_id : Nat
  title : String
  price_rupees : Int
  quantity : Int
deriving DecidableEq, Repr

/-- The persistent store: the four tables the claims touch, plus the
autoincrement counters that hand out primary keys. -/
structure DB where
  products : List Product
  cartItems : List CartItem
  orders : List Order
  orderItems : List OrderItem
  nextProductId : Nat
  nextCartItemId : Nat
  nextOrderId : Nat
  nextOrderItemId : Nat
deriving DecidableEq, Repr

/-- `Product.query.get(pid)` — look a product up by primary key. -/
def findProduct (products : List Product) (pid : Nat) : Option Product :=
  products.find? (fun p => p.id == pid)

/-- Digit run of a Python int literal after its first digit: digits with
single underscores allowed between digits. -/
def pyDigitsAux (acc : Nat) : List Char → Option Nat
  | [] => some acc
  | c :: cs =>
    if c.isDigit then pyDigitsAux (acc * 10 + (c.toNat - 48)) cs
    else if c == '_' then
      match cs with
      | [] => none
      | d :: cs' =>
        if d.isDigit then pyDigitsAux (acc * 10 + (d.toNat - 48)) cs' else none
    else none

/-- A nonempty digit string (with Python's underscore grouping) to its value. -/
def pyNatOfDigits : List Char → Option Nat
  | [] => none
  | c :: cs => if c.isDigit then pyDigitsAux (c.toNat - 48) cs else none

/-- Python's `int(s)` on a string: strip surrounding whitespace, optional
sign, then a digit run; `none` models the `ValueError` branch. -/
def pyParseInt (s : String) : Option Int :=
  let cs := ((s.toList.dropWhile isPySpace).reverse.dropWhile isPySpace).reverse
  match cs with
  | '+' :: rest => (pyNatOfDigits rest).map (fun n => (n : Int))
  | '-' :: rest => (pyNatOfDigits rest).map (fun n => -(n : Int))
  | rest => (pyNatOfDigits rest).map (fun n => (n : Int))

/-- `parse_int` from `src/app.py`: `int(value)` with any exception turned
into the default. -/
def parse_int (value : String) (default : Int) : Int :=
  (pyParseInt value).getD default

/-- POST `/products/new` (`product_new`). `priceStr` is the raw `price`
form field (`none` when the field is absent; the handler defaults it to
`"0"`). -/
def product_new (uid : Nat) (title description category : String)
    (priceStr : Option String) (image_url : String) (db : DB) : Option Err × DB :=
  let title := pyStrip title
  let description := pyStrip description
  let category := pyStrip category
  let price_rupees := parse_int (priceStr.getD "0") 0
  let image_url := pyStrip image_url
  if title = "" ∨ category = "" then (some .validationError, db)
  else if category ∉ CATEGORIES then (some .validationError, db)
  else
    let p : Product :=
      ⟨db.nextProductId, title, description, category, price_rupees,
        if image_url = "" then none else some image_url, uid⟩
    (none, { db with products := db.products ++ [p],
                     nextProductId := db.nextProductId + 1 })

/-- POST `/products/{pid}/edit` (`product_edit`). On the invalid-category
branch the handler mutates the ORM object but redirects without commit, so
the persistent state is unchanged there. -/
def product_edit (uid pid : Nat) (title description category : String)
    (priceStr : Option String) (image_url : String) (db : DB) : Option Err × DB :=
  match findProduct db.products pid with
  | none => (some .notFound, db)
  | some p =>
    if p.seller_id ≠ uid then (some .notOwner, db)
    else
      let category := pyStrip category
      if category ∉ CATEGORIES then (some .validationError, db)
      else
        let iu := pyStrip image_url
        let p' : Product :=
          { p with title := pyStrip title, description := pyStrip description,
                   category := category,
                   price_rupees := parse_int (priceStr.getD "0") 0,
                   image_url := if iu = "" then none else some iu }
        (none, { db with products := db.products.map (fun q => if q.id == pid then p' else q) })

/-- POST `/products/{pid}/delete` (`product_delete`). Only the product row
is removed; no cascade to `cart_item` is configured on the relationship, so
cart rows referencing the product stay behind. -/
def product_delete (uid pid : Nat) (db : DB) : Option Err × DB :=
  match findProduct db.products pid with
  | none => (some .notFound, db)
  | some p =>
    if p.seller_id ≠ uid then (some .notOwner, db)
    else (none, { db with products := db.products.filter (fun q => q.id != pid) })

/-- `CartItem.query.filter_by(user_id=uid).all()`. -/
def cartOf (uid : Nat) (db : DB) : List CartItem :=
  db.cartItems.filter (fun i => i.user_id == uid)

/-- The `total` computed by GET `/cart` (`cart_view`):
`sum(i.product.price_rupees * i.quantity for i in items if i.product)`. -/
def cart_view_total (uid : Nat) (db : DB) : Int :=
  ((cartOf uid db).filterMap
    (fun i => (findProduct db.products i.product_id).map
      (fun p => p.price_rupees * i.quantity))).sum

/-- Increment the quantity of the first cart row matching `(uid, pid)`;
`none` when no row matches (`CartItem.query.filter_by(...).first()` empty). -/
def bumpFirst (uid pid : Nat) : List CartItem → Option (List CartItem)
  | [] => none
  | i :: rest =>
    if i.user_id == uid && i.product_id == pid then
      some ({ i with quantity := i.quantity + 1 } :: rest)
    else
      (bumpFirst uid pid rest).map (fun rest' => i :: rest')

/-- POST `/cart/add/{pid}` (`cart_add`): 404 on a missing product, merge
into an existing `(user, product)` row, else insert a fresh row with
quantity 1. -/
def cart_add (uid pid : Nat) (db : DB) : Option Err × DB :=
  match findProduct db.products pid with
  | none => (some .notFound, db)
  | some _ =>
    match bumpFirst uid pid db.cartItems with
    | some items => (none, { db with cartItems := items })
    | none =>
      let item : CartItem := ⟨db.nextCartItemId, uid, pid, 1⟩
      (none, { db with cartItems := db.cartItems ++ [item],
                       nextCartItemId := db.nextCartItemId + 1 })

/-- POST `/cart/remove/{itemId}` (`cart_remove`). -/
def cart_remove (uid itemId : Nat) (db : DB) : Option Err × DB :=
  match db.cartItems.find? (fun i => i.id == itemId) with
  | none => (some .notFound, db)
  | some item =>
    if item.user_id ≠ uid then (some .notOwner, db)
    else (none, { db with cartItems := db.cartItems.filter (fun i => i.id != itemId) })

/-- The order lines the checkout loop creates for the cart rows `items`:
rows whose product is gone are skipped, the rest snapshot the product's
current title and price and copy the row's quantity. `nid` threads the
autoincrement key for `order_item`. -/
def mkOrderItems (products : List Product) (orderId : Nat) :
    Nat → List CartItem → List OrderItem
  | _, [] => []
  | nid, i :: rest =>
    match findProduct products i.product_id with
    | none => mkOrderItems products orderId nid rest
    | some p =>
      ⟨nid, orderId, i.product_id, p.title, p.price_rupees, i.quantity⟩ ::
        mkOrderItems products orderId (nid + 1) rest

/-- POST `/checkout` (`checkout`): empty cart flashes and aborts; otherwise
an `Order` row is created unconditionally, order lines are created for the
cart rows whose product still exists, and exactly those cart rows are
deleted (the loop `continue`s past rows with a missing product before the
delete). -/
def checkout (uid : Nat) (db : DB) : Option Err × DB :=
  let items := cartOf uid db
  if items.isEmpty then (some .emptyCart, db)
  else
    let order : Order := ⟨db.nextOrderId, uid⟩
    let newItems := mkOrderItems db.products order.id db.nextOrderItemId items
    (none,
      { db with
        orders := db.orders ++ [order],
        orderItems := db.orderItems ++ newItems,
        cartItems := db.cartItems.filter
          (fun i => !(i.user_id == uid && (findProduct db.products i.product_id).isSome)),
        nextOrderId := db.nextOrderId + 1,
        nextOrderItemId := db.nextOrderItemId + newItems.length })

/-- The (owner, product) key of a cart row. -/
def CartItem.key (i : CartItem) : Nat × Nat :=
  (i.user_id, i.product_id)

/-- Cart-holder invariant from the spec: at most one cart row per
(owner, product) pair, and every quantity is at least 1. -/
def Inv (db : DB) : Prop :=
  (db.cartItems.map CartItem.key).Nodup ∧ ∀ i ∈ db.cartItems, 1 ≤ i.quantity

/-- The state-changing requests, for reasoning about arbitrary operation
sequences. -/
inductive Op where
  | opNew (uid : Nat) (title description category : String)
      (priceStr : Option String) (image_url : String)
  | opEdit (uid pid : Nat) (title description category : String)
      (priceStr : Option String) (image_url : String)
  | opDelete (uid pid : Nat)
  | opAdd (uid pid : Nat)
  | opRemove (uid itemId : Nat)
  | opCheckout (uid : Nat)

/-- The state reached after one request (its flashed message discarded). -/
def applyOp (op : Op) (db : DB) : DB :=
  match op with
  | .opNew uid t d c ps img => (product_new uid t d c ps img db).2
  | .opEdit uid pid t d c ps img => (product_edit uid pid t d c ps img db).2
  | .opDelete uid pid => (product_delete uid pid db).2
  | .opAdd uid pid => (cart_add uid pid db).2
  | .opRemove uid itemId => (cart_remove uid itemId db).2
  | .opCheckout uid => (checkout uid db).2

/-- The state reached after a sequence of requests. -/
def applyOps (ops : List Op) (db : DB) : DB :=
  ops.foldl (fun db op => applyOp op db) db

/-- The cart total written the way §4.3 of the spec words it: a sum over
all of the owner's entries in which an entry whose product was deleted
contributes 0 and a surviving entry contributes current price × quantity. -/
def specCartTotal (uid : Nat) (db : DB) : Int :=
  ((cartOf uid db).map
    (fun i =>
      match findProduct db.products i.product_id with
      | some p => p.price_rupees * i.quantity
      | none => 0)).sum

/-- Total quantity the owner's cart holds of one product. -/
def cartQty (uid pid : Nat) (db : DB) : Int :=
  (((cartOf uid db).filter (fun i => i.product_id == pid)).map
    (fun i => i.quantity)).sum

end V1

namespace V2

/-- `CATEGORIES` from `src/ecofinds-backend/app.py`. -/
def CATEGORIES : List String :=
  ["Home", "Fashion", "Electronics", "Outdoors", "Beauty", "Other"]

/-- A row of the `product` table (`src/ecofinds-backend/app.py`); prices
are decimal amounts, modelled as rationals. -/
structure Product where
  id : Nat
  name : String
  description : String
  price : ℚ
  category : String
  seller_id : Nat
deriving DecidableEq, Repr

/-- One entry of the session cart list: the dict
`\x7b"id", "name", "price", "quantity"\x7d` appended by `add_to_cart`.
`name` and `price` are snapshots of the product at add time. -/
structure CartLine where
  id : Nat
  name : String
  price : ℚ
  quantity : Int
deriving DecidableEq, Repr

/-- A row of the `order` table (`src/ecofinds-backend/app.py`): this
variant stores the total on the order. -/
structure Order where
  id : Nat
  user_id : Nat
  total : ℚ
deriving DecidableEq, Repr

/-- A row of the `order_item` table (`src/ecofinds-backend/app.py`): a
price snapshot but no title column. -/
structure OrderItem where
  id : Nat
  order_id : Nat
  product_id : Nat
  quantity : Int
  price : ℚ
deriving DecidableEq, Repr

/-- Persistent tables plus the one session cart under consideration. -/
structure St where
  products : List Product
  orders : List Order
  orderItems : List OrderItem
  cart : List CartLine
  nextProductId : Nat
  nextOrderId : Nat
  nextOrderItemId : Nat
deriving DecidableEq, Repr

/-- `db.session.get(Product, pid)`. -/
def findProduct (products : List Product) (pid : Nat) : Option Product :=
  products.find? (fun p => p.id == pid)

/-- POST `/product/new` (`product_form`): only the name is validated; the
category field is taken as-is (defaulting to `"Other"` when absent) with no
membership check against `CATEGORIES`. The price argument stands for the
already-converted `float(...)` value. -/
def product_form (uid : Nat) (name description : String) (price : ℚ)
    (category : Option String) (st : St) : Option Err × St :=
  let name := pyStrip name
  let description := pyStrip description
  let category := category.getD "Other"
  if name = "" then (some .validationError, st)
  else
    let p : Product := ⟨st.nextProductId, name, description, price, category, uid⟩
    (none, { st with products := st.products ++ [p],
                     nextProductId := st.nextProductId + 1 })

/-- The merge loop of `add_to_cart`: bump the quantity of the first cart
line with the given product id, `none` when the loop falls through to its
`else` clause. -/
def bumpLine (pid : Nat) : List CartLine → Option (List CartLine)
  | [] => none
  | l :: rest =>
    if l.id == pid then some ({ l with quantity := l.quantity + 1 } :: rest)
    else (bumpLine pid rest).map (fun rest' => l :: rest')

/-- `/cart/add/{pid}` (`add_to_cart`): 404 on a missing product; merge
quantities when the line exists, else append a line snapshotting the
product's current name and price with quantity 1. -/
def add_to_cart (pid : Nat) (st : St) : Option Err × St :=
  match findProduct st.products pid with
  | none => (some .notFound, st)
  | some p =>
    match bumpLine pid st.cart with
    | some cart' => (none, { st with cart := cart' })
    | none =>
      (none, { st with cart := st.cart ++ [⟨p.id, p.name, p.price, 1⟩] })

/-- `/cart/remove/{pid}` (`remove_from_cart`). -/
def remove_from_cart (pid : Nat) (st : St) : Option Err × St :=
  (none, { st with cart := st.cart.filter (fun l => l.id != pid) })

/-- The `total` computed by GET `/cart` (and again by `checkout`):
`sum(item["price"] * item.get("quantity", 1) for item in cart)` — the
stored snapshot price, not the live catalog price. -/
def cart_total (st : St) : ℚ :=
  (st.cart.map (fun l => l.price * (l.quantity : ℚ))).sum

/-- The order lines `checkout` creates, one per cart line, copying the
line's snapshot price; `nid` threads the `order_item` autoincrement key. -/
def mkOrderItems (orderId : Nat) : Nat → List CartLine → List OrderItem
  | _, [] => []
  | nid, l :: rest =>
    ⟨nid, orderId, l.id, l.quantity, l.price⟩ :: mkOrderItems orderId (nid + 1) rest

/-- `/checkout` (`checkout`): empty cart flashes and aborts; otherwise an
`Order` with the cart total and one `OrderItem` per cart line are created
and the session cart is reset to `[]`. -/
def checkout (uid : Nat) (st : St) : Option Err × St :=
  if st.cart.isEmpty then (some .emptyCart, st)
  else
    let total := cart_total st
    let order : Order := ⟨st.nextOrderId, uid, total⟩
    let newItems := mkOrderItems order.id st.nextOrderItemId st.cart
    (none,
      { st with
        orders := st.orders ++ [order],
        orderItems := st.orderItems ++ newItems,
        cart := [],
        nextOrderId := st.nextOrderId + 1,
        nextOrderItemId := st.nextOrderItemId + newItems.length })

/-- Cart-holder invariant for the session cart: at most one line per
product id, and every quantity is at least 1. -/
def Inv (st : St) : Prop :=
  (st.cart.map (fun l => l.id)).Nodup ∧ ∀ l ∈ st.cart, 1 ≤ l.quantity

/-- Session-cart coherence: every cart line references a product that
still exists and stores that product's current price as its snapshot.
`add_to_cart` establishes it line by line, and no request of this variant
breaks it — products are never edited or deleted — so it holds on every
state reachable from an empty cart and ties the add-time price snapshot
to the live catalog. -/
def Coherent (st : St) : Prop :=
  ∀ l ∈ st.cart, ∃ p, findProduct st.products l.id = some p ∧ p.price = l.price

/-- The state-changing requests of this variant (it exposes no product
edit or delete route). -/
inductive Op where
  | opNew (uid : Nat) (name description : String) (price : ℚ)
      (category : Option String)
  | opAdd (pid : Nat)
  | opRemove (pid : Nat)
  | opCheckout (uid : Nat)

/-- The state reached after one request. -/
def applyOp (op : Op) (st : St) : St :=
  match op with
  | .opNew uid n d price c => (product_form uid n d price c st).2
  | .opAdd pid => (add_to_cart pid st).2
  | .opRemove pid => (remove_from_cart pid st).2
  | .opCheckout uid => (checkout uid st).2

/-- The state reached after a sequence of requests. -/
def applyOps (ops : List Op) (st : St) : St :=
  ops.foldl (fun st op => applyOp op st) st

end V2

/-! ## Sample states used by witnesses and counterexamples -/

/-- An empty V1 store. -/
def db0 : V1.DB :=
  ⟨[], [], [], [], 1, 1, 1, 1⟩

/-- An empty V2 store. -/
def st0 : V2.St :=
  ⟨[], [], [], [], 1, 1, 1⟩

/-- V1 store in which user 1's only cart row references product 99, which
does not exist. -/
def dbStale : V1.DB :=
  ⟨[], [⟨1, 1, 99, 1⟩], [], [], 1, 2, 1, 1⟩

/-- V1 store holding product 5 (owned by user 1) and a cart for user 2
with one live row (product 5) and one stale row (product 99). -/
def dbMixed : V1.DB :=
  ⟨[⟨5, "Mug", "", "Other", 10, none, 1⟩],
   [⟨1, 2, 5, 1⟩, ⟨2, 2, 99, 3⟩], [], [], 6, 3, 1, 1⟩

/-- V2 store whose session cart holds one line (product id 7, price 10,
quantity 1). -/
def stCart : V2.St :=
  ⟨[], [], [], [⟨7, "Bottle", 10, 1⟩], 1, 1, 1⟩

/-- V2 store with one product (id 3) and an empty session cart. -/
def stShop : V2.St :=
  ⟨[⟨3, "Tote", "", 4, "Fashion", 1⟩], [], [], [], 4, 1, 1⟩

/-- V2 store holding the product "Bottle" (id 7, price 10) with a
coherent one-line cart for it. -/
def stA : V2.St :=
  ⟨[⟨7, "Bottle", "", 10, "Other", 1⟩], [], [], [⟨7, "Bottle", 10, 1⟩], 8, 1, 1⟩

/-- Like `stA`, but the product (and its cart line) is titled "Flask"
instead of "Bottle"; prices and ids agree with `stA`. -/
def stB : V2.St :=
  ⟨[⟨7, "Flask", "", 10, "Other", 1⟩], [], [], [⟨7, "Flask", 10, 1⟩], 8, 1, 1⟩

/-! ## Helper lemmas -/

/-- The checkout loop creates no order line when every cart row's product
is missing. -/
theorem mkOrderItems_eq_nil (ps : List V1.Product) (oid : Nat) :
    ∀ (items : List V1.CartItem) (nid : Nat),
      (∀ i ∈ items, V1.findProduct ps i.product_id = none) →
      V1.mkOrderItems ps oid nid items = [] := by
  intro items
  induction items with
  | nil => intro nid _; rfl
  | cons i rest ih =>
    intro nid h
    have h0 := h i (List.mem_cons_self i rest)
    simp only [V1.mkOrderItems, h0]
    exact ih nid fun j hj => h j (List.mem_cons_of_mem i hj)

/-- Checkout's cart-clearing filter deletes nothing when every one of the
owner's cart rows references a missing product. -/
theorem cart_filter_eq_self (db : V1.DB) (uid : Nat)
    (h : ∀ i ∈ V1.cartOf uid db, V1.findProduct db.products i.product_id = none) :
    db.cartItems.filter
      (fun i => !(i.user_id == uid && (V1.findProduct db.products i.product_id).isSome))
      = db.cartItems := by
  rw [List.filter_eq_self]
  intro i hi
  by_cases hu : i.user_id = uid
  · have hm : i ∈ V1.cartOf uid db := by
      rw [V1.cartOf, List.mem_filter]
      exact ⟨hi, by simp [hu]⟩
    simp [h i hm]
  · simp [hu]

/-! ## C1 — checkout when all cart entries are stale -/

/-- C1 counterexample: in `dbStale` user 1's cart is non-empty but its
only row references the missing product 99; checkout nevertheless
succeeds and creates an Order row, refuting the claimed EmptyCart
failure. -/
theorem c1_counterexample :
    V1.cartOf 1 dbStale ≠ [] ∧
    (∀ i ∈ V1.cartOf 1 dbStale, V1.findProduct dbStale.products i.product_id = none) ∧
    (V1.checkout 1 dbStale).1 = none ∧
    (V1.checkout 1 dbStale).2.orders.length = dbStale.orders.length + 1 :=
  ⟨by decide, by decide, by decide, by decide⟩

/-- C1 amended: when the owner's cart is non-empty but every row
references a missing product, checkout succeeds anyway: it creates an
Order with no order lines, leaves every cart row in place, and only the
order counter advances — the zero recomputed total is not treated as
EmptyCart. -/
theorem c1_amended :
    ∀ (db : V1.DB) (uid : Nat),
      V1.cartOf uid db ≠ [] →
      (∀ i ∈ V1.cartOf uid db, V1.findProduct db.products i.product_id = none) →
      V1.checkout uid db =
        (none, { db with orders := db.orders ++ [⟨db.nextOrderId, uid⟩],
                         nextOrderId := db.nextOrderId + 1 }) := by
  intro db uid hne h
  have hmk := mkOrderItems_eq_nil db.products db.nextOrderId (V1.cartOf uid db)
    db.nextOrderItemId h
  have hfil := cart_filter_eq_self db uid h
  simp only [V1.checkout]
  rw [if_neg (by simp [List.isEmpty_iff, hne])]
  rw [hmk, hfil]
  simp

/-- Witness for C1 amended at `dbStale`. -/
theorem c1_amended_witness :
    V1.checkout 1 dbStale =
      (none, { dbStale with orders := dbStale.orders ++ [⟨dbStale.nextOrderId, 1⟩],
                            nextOrderId := dbStale.nextOrderId + 1 }) :=
  c1_amended dbStale 1 (by decide) (by decide)

/-! ## C2 — which cart rows a successful checkout deletes -/

/-- C2 counterexample: in `dbMixed` user 2's cart has a live row and a
stale row; checkout succeeds, yet user 2's cart is not empty afterwards —
the stale row survives. -/
theorem c2_counterexample :
    (V1.checkout 2 dbMixed).1 = none ∧
    V1.cartOf 2 (V1.checkout 2 dbMixed).2 ≠ [] :=
  ⟨rfl, by decide⟩

/-- C2 amended: after a successful checkout in the user-keyed variant a
cart row survives exactly when it belongs to another user or references a
missing product — the owner's rows whose product still exists are deleted,
but the owner's stale rows remain. (The session-keyed variant does clear
its whole cart.) -/
theorem c2_amended :
    (∀ (db : V1.DB) (uid : Nat) (db' : V1.DB),
       V1.checkout uid db = (none, db') →
       ∀ i : V1.CartItem,
         i ∈ db'.cartItems ↔
           i ∈ db.cartItems ∧
             (i.user_id ≠ uid ∨ V1.findProduct db.products i.product_id = none)) ∧
    (∀ (st : V2.St) (uid : Nat) (st' : V2.St),
       V2.checkout uid st = (none, st') → st'.cart = []) := by
  constructor
  · intro db uid db' h i
    simp only [V1.checkout] at h
    split at h
    · exact absurd (congrArg Prod.fst h) (by simp)
    · injection h with h1 h2
      subst h2
      simp only [List.mem_filter]
      constructor
      · rintro ⟨hm, hp⟩
        refine ⟨hm, ?_⟩
        by_cases hu : i.user_id = uid
        · right
          simp [hu] at hp
          exact Option.not_isSome_iff_eq_none.mp (by simp [hp])
        · exact Or.inl hu
      · rintro ⟨hm, hp⟩
        refine ⟨hm, ?_⟩
        rcases hp with hu | hn
        · simp [hu]
        · simp [hn]
  · intro st uid st' h
    simp only [V2.checkout] at h
    split at h
    · exact absurd (congrArg Prod.fst h) (by simp)
    · injection h with h1 h2
      subst h2
      rfl

/-- Witness for C2 amended: the stale row of `dbMixed` survives user 2's
checkout, and checkout from `stCart` clears the session cart. -/
theorem c2_amended_witness :
    ((⟨2, 2, 99, 3⟩ : V1.CartItem) ∈ (V1.checkout 2 dbMixed).2.cartItems ↔
      (⟨2, 2, 99, 3⟩ : V1.CartItem) ∈ dbMixed.cartItems ∧
        ((2 : Nat) ≠ 2 ∨ V1.findProduct dbMixed.products 99 = none)) ∧
    (V2.checkout 1 stCart).2.cart = [] :=
  ⟨c2_amended.1 dbMixed 2 (V1.checkout 2 dbMixed).2 rfl ⟨2, 2, 99, 3⟩,
   c2_amended.2 stCart 1 (V2.checkout 1 stCart).2 (Prod.ext rfl rfl)⟩

/-- Every order line the checkout loop creates snapshots, from the catalog
as it is at checkout time, the title and price of the product of some cart
row, and copies that row's quantity. -/
theorem mkOrderItems_snapshot (ps : List V1.Product) (oid : Nat) :
    ∀ (items : List V1.CartItem) (nid : Nat),
      ∀ oi ∈ V1.mkOrderItems ps oid nid items,
        ∃ i ∈ items, ∃ p, V1.findProduct ps i.product_id = some p ∧
          oi.product_id = i.product_id ∧ oi.title = p.title ∧
          oi.price_rupees = p.price_rupees ∧ oi.quantity = i.quantity := by
  intro items
  induction items with
  | nil => intro nid oi hoi; simp [V1.mkOrderItems] at hoi
  | cons i rest ih =>
    intro nid oi hoi
    cases hfp : V1.findProduct ps i.product_id with
    | none =>
      simp only [V1.mkOrderItems, hfp] at hoi
      obtain ⟨j, hj, hrest⟩ := ih nid oi hoi
      exact ⟨j, List.mem_cons_of_mem i hj, hrest⟩
    | some p =>
      simp only [V1.mkOrderItems, hfp] at hoi
      rcases List.mem_cons.mp hoi with rfl | hoi
      · exact ⟨i, List.mem_cons_self i rest, p, hfp, rfl, rfl, rfl, rfl⟩
      · obtain ⟨j, hj, hrest⟩ := ih (nid + 1) oi hoi
        exact ⟨j, List.mem_cons_of_mem i hj, hrest⟩

/-- Summing a `filterMap` of optional contributions equals summing with
missing contributions counted as 0. -/
theorem sum_filterMap_eq {α : Type} (l : List α) (f : α → Option Int) :
    (l.filterMap f).sum = (l.map (fun a => (f a).getD 0)).sum := by
  induction l with
  | nil => rfl
  | cons a t ih =>
    cases hf : f a with
    | none => simp [List.filterMap_cons, hf, ih]
    | some v => simp [List.filterMap_cons, hf, ih]

/-- The cart total the view computes equals the spec's formula: a sum over
the owner's rows in which a row whose product is gone contributes 0. -/
theorem cart_view_total_eq_spec (uid : Nat) (db : V1.DB) :
    V1.cart_view_total uid db = V1.specCartTotal uid db := by
  rw [V1.cart_view_total, V1.specCartTotal, sum_filterMap_eq]
  have hfun : (fun i : V1.CartItem =>
      ((V1.findProduct db.products i.product_id).map
        (fun p => p.price_rupees * i.quantity)).getD 0)
      = fun i : V1.CartItem =>
          match V1.findProduct db.products i.product_id with
          | some p => p.price_rupees * i.quantity
          | none => 0 := by
    funext i
    cases V1.findProduct db.products i.product_id <;> rfl
  rw [hfun]

/-- Looking a product up after the delete-filter: the deleted key is gone,
every other key resolves as before. -/
theorem findProduct_filter_ne (ps : List V1.Product) (pid x : Nat) :
    V1.findProduct (ps.filter (fun q => q.id != pid)) x =
      if x = pid then none else V1.findProduct ps x := by
  induction ps with
  | nil =>
    simp only [V1.findProduct, List.filter_nil, List.find?_nil]
    split <;> rfl
  | cons q t ih =>
    simp only [V1.findProduct] at ih ⊢
    rw [List.filter_cons]
    by_cases hq : q.id = pid
    · rw [if_neg (by simp [hq]), ih]
      by_cases hx : x = pid
      · simp [hx]
      · rw [if_neg hx, if_neg hx, List.find?_cons_of_neg _ (by simp [hq]; omega)]
    · rw [if_pos (by simp [hq])]
      by_cases hx : q.id = x
      · rw [List.find?_cons_of_pos _ (by simp [hx]), if_neg (by omega),
          List.find?_cons_of_pos _ (by simp [hx])]
      · rw [List.find?_cons_of_neg _ (by simp [hx]), ih,
          List.find?_cons_of_neg _ (by simp [hx])]

/-- Looking a product up through a `map` that preserves ids commutes with
the lookup. -/
theorem findProduct_map_id (l : List V1.Product) (f : V1.Product → V1.Product)
    (hf : ∀ q, (f q).id = q.id) (x : Nat) :
    V1.findProduct (l.map f) x = (V1.findProduct l x).map f := by
  induction l with
  | nil => rfl
  | cons q t ih =>
    simp only [V1.findProduct, List.map_cons, List.find?_cons] at ih ⊢
    rw [hf q]
    by_cases hx : q.id = x
    · simp [hx]
    · simp only [show (q.id == x) = false by simp [hx]]
      exact ih

/-- Sums over `Int` split across pointwise addition. -/
theorem sum_map_add {α : Type} (l : List α) (g h : α → Int) :
    (l.map (fun a => g a + h a)).sum = (l.map g).sum + (l.map h).sum := by
  induction l with
  | nil => rfl
  | cons a t ih => simp only [List.map_cons, List.sum_cons, ih]; ring

/-- Summing a contribution that is zero off one key equals the coefficient
times the quantity held of that key. -/
theorem sum_ite_key (l : List V1.CartItem) (pid : Nat) (c : Int) :
    (l.map (fun i => if i.product_id == pid then c * i.quantity else 0)).sum =
      c * ((l.filter (fun i => i.product_id == pid)).map (fun i => i.quantity)).sum := by
  induction l with
  | nil => simp
  | cons a t ih =>
    simp only [List.map_cons, List.sum_cons, List.filter_cons]
    by_cases h : a.product_id = pid
    · rw [if_pos (show (a.product_id == pid) = true by simp [h]),
        if_pos (show (a.product_id == pid) = true by simp [h]), ih,
        List.map_cons, List.sum_cons]
      ring
    · rw [if_neg (show ¬(a.product_id == pid) = true by simp [h]),
        if_neg (show ¬(a.product_id == pid) = true by simp [h]), ih]
      ring

/-- The spec total only reads the cart rows and the product table, so a
products-only update recomputes the same rows against the new table. -/
theorem specCartTotal_products (db : V1.DB) (ps' : List V1.Product) (u : Nat) :
    V1.specCartTotal u { db with products := ps' } =
      ((V1.cartOf u db).map (fun i =>
        match V1.findProduct ps' i.product_id with
        | some p => p.price_rupees * i.quantity
        | none => 0)).sum := rfl

/-- Replacing one product (same id) in the table shifts the spec total by
the price difference times the quantity the owner holds of it. -/
theorem specTotal_map_update (db : V1.DB) (pid : Nat) (p p' : V1.Product)
    (hp : V1.findProduct db.products pid = some p) (hid : p'.id = p.id) (u : Nat) :
    ((V1.cartOf u db).map (fun i =>
      match V1.findProduct (db.products.map (fun q => if q.id == pid then p' else q))
          i.product_id with
      | some q => q.price_rupees * i.quantity
      | none => 0)).sum
    = V1.specCartTotal u db +
        (p'.price_rupees - p.price_rupees) * V1.cartQty u pid db := by
  have hpid : p.id = pid := by simpa using List.find?_some hp
  have hf : ∀ q : V1.Product, ((fun q => if q.id == pid then p' else q) q).id = q.id := by
    intro q
    by_cases hq : q.id = pid
    · simp [hq, hid, hpid]
    · simp [hq]
  have hfun : (fun i : V1.CartItem =>
      match V1.findProduct (db.products.map (fun q => if q.id == pid then p' else q))
          i.product_id with
      | some q => q.price_rupees * i.quantity
      | none => 0)
      = fun i : V1.CartItem =>
          (match V1.findProduct db.products i.product_id with
           | some q => q.price_rupees * i.quantity
           | none => 0) +
          (if i.product_id == pid then
            (p'.price_rupees - p.price_rupees) * i.quantity else 0) := by
    funext i
    rw [findProduct_map_id _ _ hf]
    by_cases hip : i.product_id = pid
    · rw [hip, hp]
      simp only [Option.map_some', show (fun q => if q.id == pid then p' else q) p = p'
        by simp [hpid]]
      rw [if_pos (by simp)]
      ring
    · cases hq : V1.findProduct db.products i.product_id with
      | none =>
        simp only [Option.map_none']
        rw [if_neg (by simp [hip])]
        ring
      | some q =>
        have hqid : q.id = i.product_id := by simpa using List.find?_some hq
        simp only [Option.map_some', show (fun q => if q.id == pid then p' else q) q = q
          by simp [hqid, hip]]
        rw [if_neg (by simp [hip])]
        ring
  rw [hfun, sum_map_add, sum_ite_key, V1.specCartTotal, V1.cartQty]

/-! ## C5 — checkout on an empty cart -/

/-- C5: for every owner with an empty cart, checkout fails with EmptyCart
and the persistent state is unchanged (in particular no Order row is
created), in both variants. -/
theorem c5_checkout_empty_cart :
    (∀ (db : V1.DB) (uid : Nat), V1.cartOf uid db = [] →
      V1.checkout uid db = (some Err.emptyCart, db)) ∧
    (∀ (st : V2.St) (uid : Nat), st.cart = [] →
      V2.checkout uid st = (some Err.emptyCart, st)) := by
  constructor
  · intro db uid h
    simp [V1.checkout, h]
  · intro st uid h
    simp [V2.checkout, h]

/-- Witness for C5 at the empty stores. -/
theorem c5_checkout_empty_cart_witness :
    V1.checkout 1 db0 = (some Err.emptyCart, db0) ∧
    V2.checkout 1 st0 = (some Err.emptyCart, st0) :=
  ⟨c5_checkout_empty_cart.1 db0 1 rfl, c5_checkout_empty_cart.2 st0 1 rfl⟩

/-! ## C9 — non-owner edit and delete -/

/-- C9: for every product and every user who is not its owner, both the
edit and the delete handler fail with NotOwner and return the store
unchanged, so every field of the product (ownership included) keeps its
prior value. -/
theorem c9_not_owner :
    ∀ (db : V1.DB) (uid pid : Nat) (p : V1.Product)
      (title description category : String) (priceStr : Option String)
      (image_url : String),
      V1.findProduct db.products pid = some p → p.seller_id ≠ uid →
      V1.product_edit uid pid title description category priceStr image_url db =
        (some Err.notOwner, db) ∧
      V1.product_delete uid pid db = (some Err.notOwner, db) := by
  intro db uid pid p t d c ps img hp hne
  constructor
  · simp [V1.product_edit, hp, hne]
  · simp [V1.product_delete, hp, hne]

/-- Witness for C9: user 2 attacking user 1's product 5. -/
theorem c9_not_owner_witness :
    V1.product_edit 2 5 "T" "D" "Other" none "" dbMixed = (some Err.notOwner, dbMixed) ∧
    V1.product_delete 2 5 dbMixed = (some Err.notOwner, dbMixed) :=
  c9_not_owner dbMixed 2 5 ⟨5, "Mug", "", "Other", 10, none, 1⟩ "T" "D" "Other" none ""
    (by decide) (by decide)

/-! ## C10 — total price parsing at product creation -/

/-- C10: `parse_int` turns every unparsable price string into the default
0 instead of raising, so product creation in the user-keyed variant never
fails because of the price: with a valid title and category and a missing
or unparsable price field, the product is persisted with `price_rupees`
0. -/
theorem c10_parse_int_total :
    (∀ s : String, V1.pyParseInt s = none → V1.parse_int s 0 = 0) ∧
    (∀ (db : V1.DB) (uid : Nat) (title description category : String)
       (ps : Option String) (image_url : String),
       pyStrip title ≠ "" → pyStrip category ∈ V1.CATEGORIES →
       (∀ s, ps = some s → V1.pyParseInt s = none) →
       ∃ p : V1.Product,
         V1.product_new uid title description category ps image_url db =
           (none, { db with products := db.products ++ [p],
                            nextProductId := db.nextProductId + 1 }) ∧
         p.price_rupees = 0) := by
  constructor
  · intro s h
    simp [V1.parse_int, h]
  · intro db uid t d c ps img ht hc hps
    have hc0 : pyStrip c ≠ "" := by
      intro h0
      rw [h0] at hc
      exact absurd hc (by decide)
    have hprice : V1.parse_int (ps.getD "0") 0 = 0 := by
      cases ps with
      | none => decide
      | some s => simp [V1.parse_int, hps s rfl]
    refine ⟨⟨db.nextProductId, pyStrip t, pyStrip d, pyStrip c, 0,
      if pyStrip img = "" then none else some (pyStrip img), uid⟩, ?_, rfl⟩
    simp only [V1.product_new]
    rw [if_neg (by tauto), if_neg (not_not_intro hc), hprice]

/-- Witness for C10: `"abc"` is unparsable, so user 1 creating a product
with price field `"abc"` persists it with price 0. -/
theorem c10_parse_int_total_witness :
    V1.parse_int "abc" 0 = 0 ∧
    ∃ p : V1.Product,
      V1.product_new 1 "Chair" "" "Books" (some "abc") "" db0 =
        (none, { db0 with products := db0.products ++ [p],
                          nextProductId := db0.nextProductId + 1 }) ∧
      p.price_rupees = 0 :=
  ⟨c10_parse_int_total.1 "abc" (by decide),
   c10_parse_int_total.2 db0 1 "Chair" "" "Books" (some "abc") ""
     (by decide) (by decide) (fun s hs => by cases hs; decide)⟩

/-! ## C6 — category validation at product creation -/

/-- C6 counterexample: the session-keyed variant does not validate the
category, so a creation with category `"Bogus"` (outside its fixed set)
succeeds and persists the Product — refuting the claim that every such
creation fails with a validation error and persists nothing. -/
theorem c6_counterexample :
    ("Bogus" ∉ V2.CATEGORIES) ∧
    V2.product_form 1 "Lamp" "" 5 (some "Bogus") st0 =
      (none, { st0 with products := [⟨1, "Lamp", "", 5, "Bogus", 1⟩],
                        nextProductId := 2 }) := by
  constructor
  · decide
  · rfl

/-- C6 amended: in the user-keyed variant, a creation whose category is
outside the fixed set fails with a validation error and persists nothing;
the session-keyed variant accepts any nonempty-named creation and persists
the product with the submitted category unchecked. -/
theorem c6_amended :
    (∀ (db : V1.DB) (uid : Nat) (t d c : String) (ps : Option String)
       (img : String), pyStrip c ∉ V1.CATEGORIES →
       V1.product_new uid t d c ps img db = (some Err.validationError, db)) ∧
    (∀ (st : V2.St) (uid : Nat) (n d : String) (price : ℚ) (c : String),
       pyStrip n ≠ "" →
       ∃ p : V2.Product,
         V2.product_form uid n d price (some c) st =
           (none, { st with products := st.products ++ [p],
                            nextProductId := st.nextProductId + 1 }) ∧
         p.category = c) := by
  constructor
  · intro db uid t d c ps img hc
    simp only [V1.product_new]
    by_cases h : pyStrip t = "" ∨ pyStrip c = ""
    · rw [if_pos h]
    · rw [if_neg h, if_pos hc]
  · intro st uid n d price c hn
    exact ⟨⟨st.nextProductId, pyStrip n, pyStrip d, price, c, uid⟩,
      by simp [V2.product_form, hn], rfl⟩

/-- Witness for C6 amended. -/
theorem c6_amended_witness :
    V1.product_new 1 "X" "" "Bogus" none "" db0 = (some Err.validationError, db0) ∧
    ∃ p : V2.Product,
      V2.product_form 1 "Lamp2" "" 5 (some "Nope") st0 =
        (none, { st0 with products := st0.products ++ [p],
                          nextProductId := st0.nextProductId + 1 }) ∧
      p.category = "Nope" :=
  ⟨c6_amended.1 db0 1 "X" "" "Bogus" none "" (by decide),
   c6_amended.2 st0 1 "Lamp2" "" 5 "Nope" (by decide)⟩

/-! ## C7 — product deletion and the cart -/

/-- C7 counterexample: user 1 deletes their product 5 while user 2's cart
references it; the deletion succeeds, yet user 2's cart still contains the
row for product 5 — no cascade to the cart exists. -/
theorem c7_counterexample :
    (V1.product_delete 1 5 dbMixed).1 = none ∧
    (V1.product_delete 1 5 dbMixed).2.cartItems.filter
      (fun i => i.product_id == 5) = [⟨1, 2, 5, 1⟩] := by
  constructor
  · rfl
  · rfl

/-- C7 amended: a successful delete removes only the Product row; every
cart row (including rows referencing the deleted product) is left in
place, and the product can no longer be looked up, so those rows are
thereafter skipped by totals and checkout. -/
theorem c7_amended :
    ∀ (db : V1.DB) (uid pid : Nat) (db' : V1.DB),
      V1.product_delete uid pid db = (none, db') →
      db'.cartItems = db.cartItems ∧ V1.findProduct db'.products pid = none := by
  intro db uid pid db' h
  simp only [V1.product_delete] at h
  split at h
  · exact absurd (congrArg Prod.fst h) (by simp)
  · split at h
    · exact absurd (congrArg Prod.fst h) (by simp)
    · injection h with h1 h2
      subst h2
      refine ⟨rfl, ?_⟩
      rw [V1.findProduct, List.find?_eq_none]
      intro q hq
      rw [List.mem_filter] at hq
      simpa using hq.2

/-- Witness for C7 amended, at the deletion of product 5 from
`dbMixed`. -/
theorem c7_amended_witness :
    (V1.product_delete 1 5 dbMixed).2.cartItems = dbMixed.cartItems ∧
    V1.findProduct (V1.product_delete 1 5 dbMixed).2.products 5 = none :=
  c7_amended dbMixed 1 5 (V1.product_delete 1 5 dbMixed).2 rfl

/-! ## C8 helper lemmas — cart invariant machinery, user-keyed variant -/

/-- If no cart row matches `(uid, pid)`, the merge loop misses. -/
theorem bumpFirst_eq_none {uid pid : Nat} :
    ∀ l : List V1.CartItem,
      (∀ i ∈ l, ¬(i.user_id = uid ∧ i.product_id = pid)) →
      V1.bumpFirst uid pid l = none := by
  intro l
  induction l with
  | nil => intro _; rfl
  | cons i rest ih =>
    intro h
    simp only [V1.bumpFirst]
    rw [if_neg (by simpa using h i (List.mem_cons_self i rest)),
      ih fun j hj => h j (List.mem_cons_of_mem i hj)]
    rfl

/-- Conversely, a missed merge means no cart row matches `(uid, pid)`. -/
theorem no_match_of_bumpFirst_none {uid pid : Nat} :
    ∀ l : List V1.CartItem, V1.bumpFirst uid pid l = none →
      ∀ i ∈ l, ¬(i.user_id = uid ∧ i.product_id = pid) := by
  intro l
  induction l with
  | nil => intro _ i hi; cases hi
  | cons j rest ih =>
    intro h i hi
    simp only [V1.bumpFirst] at h
    by_cases hj : (j.user_id == uid && j.product_id == pid) = true
    · rw [if_pos hj] at h
      cases h
    · rw [if_neg hj] at h
      rcases List.mem_cons.mp hi with rfl | hi'
      · simpa using hj
      · exact ih (Option.map_eq_none'.mp h) i hi'

/-- A successful merge keeps the `(owner, product)` keys of the rows (in
order) and never drops a quantity below its old bound. -/
theorem bumpFirst_some_inv {uid pid : Nat} :
    ∀ (l l' : List V1.CartItem), V1.bumpFirst uid pid l = some l' →
      l'.map V1.CartItem.key = l.map V1.CartItem.key ∧
      ((∀ i ∈ l, 1 ≤ i.quantity) → ∀ i ∈ l', 1 ≤ i.quantity) := by
  intro l
  induction l with
  | nil => intro l' h; cases h
  | cons j rest ih =>
    intro l' h
    simp only [V1.bumpFirst] at h
    by_cases hj : (j.user_id == uid && j.product_id == pid) = true
    · rw [if_pos hj] at h
      injection h with h
      subst h
      refine ⟨rfl, fun hq i hi => ?_⟩
      rcases List.mem_cons.mp hi with rfl | hi'
      · have := hq j (List.mem_cons_self j rest)
        show (1 : Int) ≤ j.quantity + 1
        omega
      · exact hq i (List.mem_cons_of_mem j hi')
    · rw [if_neg hj] at h
      cases hb : V1.bumpFirst uid pid rest with
      | none => rw [hb] at h; cases h
      | some r' =>
        rw [hb] at h
        injection h with h
        subst h
        obtain ⟨hk, hq⟩ := ih r' hb
        refine ⟨by simp only [List.map_cons, hk], fun hql i hi => ?_⟩
        rcases List.mem_cons.mp hi with rfl | hi'
        · exact hql i (List.mem_cons_self ..)
        · exact hq (fun x hx => hql x (List.mem_cons_of_mem j hx)) i hi'

/-- The merge loop distributes over an append whose prefix has no match. -/
theorem bumpFirst_append {uid pid : Nat} (l₁ l₂ : List V1.CartItem)
    (h : ∀ i ∈ l₁, ¬(i.user_id = uid ∧ i.product_id = pid)) :
    V1.bumpFirst uid pid (l₁ ++ l₂) =
      (V1.bumpFirst uid pid l₂).map (fun r => l₁ ++ r) := by
  induction l₁ with
  | nil =>
    simp only [List.nil_append]
    cases hb : V1.bumpFirst uid pid l₂ <;> simp
  | cons j rest ih =>
    simp only [List.cons_append, V1.bumpFirst, List.append_eq]
    rw [if_neg (by simpa using h j (List.mem_cons_self ..)),
      ih fun i hi => h i (List.mem_cons_of_mem _ hi)]
    cases V1.bumpFirst uid pid l₂ <;> rfl

/-- The cart invariant only reads the cart table. -/
theorem inv_of_cartItems_eq {db db' : V1.DB}
    (h : db'.cartItems = db.cartItems) (hi : V1.Inv db) : V1.Inv db' := by
  unfold V1.Inv at hi ⊢
  rw [h]
  exact hi

/-- Filtering the cart preserves the cart invariant (for any record whose
cart is the filtered one). -/
theorem inv_filter (db : V1.DB) (p : V1.CartItem → Bool) (hi : V1.Inv db) :
    V1.Inv { db with cartItems := db.cartItems.filter p } := by
  unfold V1.Inv at hi ⊢
  refine ⟨List.Nodup.sublist (List.Sublist.map _ (List.filter_sublist _)) hi.1,
    fun i him => hi.2 i (List.mem_of_mem_filter him)⟩

/-- Product creation never touches the cart table. -/
theorem product_new_cartItems (uid : Nat) (t d c : String) (ps : Option String)
    (img : String) (db : V1.DB) :
    (V1.product_new uid t d c ps img db).2.cartItems = db.cartItems := by
  simp only [V1.product_new]
  split
  · rfl
  · split
    · rfl
    · rfl

/-- Product edit never touches the cart table. -/
theorem product_edit_cartItems (uid pid : Nat) (t d c : String)
    (ps : Option String) (img : String) (db : V1.DB) :
    (V1.product_edit uid pid t d c ps img db).2.cartItems = db.cartItems := by
  simp only [V1.product_edit]
  split
  · rfl
  · split
    · rfl
    · split
      · rfl
      · rfl

/-- Product deletion never touches the cart table. -/
theorem product_delete_cartItems (uid pid : Nat) (db : V1.DB) :
    (V1.product_delete uid pid db).2.cartItems = db.cartItems := by
  simp only [V1.product_delete]
  split
  · rfl
  · split
    · rfl
    · rfl

/-- A fresh add (product exists, no matching row) appends a quantity-1 row. -/
theorem cart_add_fresh (db : V1.DB) (uid pid : Nat) (p : V1.Product)
    (hp : V1.findProduct db.products pid = some p)
    (hnm : ∀ i ∈ db.cartItems, ¬(i.user_id = uid ∧ i.product_id = pid)) :
    V1.cart_add uid pid db =
      (none, { db with
        cartItems := db.cartItems ++ [⟨db.nextCartItemId, uid, pid, 1⟩],
        nextCartItemId := db.nextCartItemId + 1 }) := by
  simp only [V1.cart_add, hp, bumpFirst_eq_none db.cartItems hnm]

/-- A repeat add (product exists, merge succeeds) stores the merged cart. -/
theorem cart_add_bump (db : V1.DB) (uid pid : Nat) (p : V1.Product)
    (l' : List V1.CartItem)
    (hp : V1.findProduct db.products pid = some p)
    (hb : V1.bumpFirst uid pid db.cartItems = some l') :
    V1.cart_add uid pid db = (none, { db with cartItems := l' }) := by
  simp only [V1.cart_add, hp, hb]

/-- Every single request preserves the cart invariant. -/
theorem applyOp_inv (op : V1.Op) (db : V1.DB) (hi : V1.Inv db) :
    V1.Inv (V1.applyOp op db) := by
  cases op with
  | opNew uid t d c ps img =>
    exact inv_of_cartItems_eq (product_new_cartItems uid t d c ps img db) hi
  | opEdit uid pid t d c ps img =>
    exact inv_of_cartItems_eq (product_edit_cartItems uid pid t d c ps img db) hi
  | opDelete uid pid =>
    exact inv_of_cartItems_eq (product_delete_cartItems uid pid db) hi
  | opAdd uid pid =>
    simp only [V1.applyOp, V1.cart_add]
    cases hfp : V1.findProduct db.products pid with
    | none => exact hi
    | some p =>
      cases hb : V1.bumpFirst uid pid db.cartItems with
      | some items =>
        obtain ⟨hk, hq⟩ := bumpFirst_some_inv db.cartItems items hb
        unfold V1.Inv at hi ⊢
        exact ⟨hk ▸ hi.1, hq hi.2⟩
      | none =>
        have hnm := no_match_of_bumpFirst_none db.cartItems hb
        unfold V1.Inv at hi ⊢
        constructor
        · simp only [List.map_append, List.map_cons, List.map_nil, List.nodup_append]
          refine ⟨hi.1, List.nodup_singleton _, ?_⟩
          intro a ha hmem
          rcases List.mem_map.mp ha with ⟨i, hil, rfl⟩
          rw [List.mem_singleton] at hmem
          have : i.user_id = uid ∧ i.product_id = pid := by
            have h1 := congrArg Prod.fst hmem
            have h2 := congrArg Prod.snd hmem
            exact ⟨h1, h2⟩
          exact hnm i hil this
        · intro i him
          rcases List.mem_append.mp him with hl | hr
          · exact hi.2 i hl
          · rw [List.mem_singleton] at hr
            subst hr
            exact le_refl 1
  | opRemove uid itemId =>
    simp only [V1.applyOp, V1.cart_remove]
    cases hf : db.cartItems.find? (fun i => i.id == itemId) with
    | none => exact hi
    | some item =>
      dsimp only
      by_cases hio : item.user_id ≠ uid
      · rw [if_pos hio]
        exact hi
      · rw [if_neg hio]
        exact inv_of_cartItems_eq rfl (inv_filter db _ hi)
  | opCheckout uid =>
    simp only [V1.applyOp, V1.checkout]
    by_cases hce : (V1.cartOf uid db).isEmpty = true
    · rw [if_pos hce]
      exact hi
    · rw [if_neg hce]
      exact inv_of_cartItems_eq rfl (inv_filter db _ hi)

/-- The cart invariant is preserved along any request sequence. -/
theorem applyOps_inv (ops : List V1.Op) :
    ∀ db : V1.DB, V1.Inv db → V1.Inv (V1.applyOps ops db) := by
  induction ops with
  | nil => exact fun db hi => hi
  | cons op rest ih => exact fun db hi => ih _ (applyOp_inv op db hi)

/-! ## C8 helper lemmas — cart invariant machinery, session variant -/

/-- If no session line carries the product id, the merge loop misses. -/
theorem bumpLine_eq_none {pid : Nat} :
    ∀ l : List V2.CartLine, (∀ x ∈ l, x.id ≠ pid) → V2.bumpLine pid l = none := by
  intro l
  induction l with
  | nil => intro _; rfl
  | cons x rest ih =>
    intro h
    simp only [V2.bumpLine]
    rw [if_neg (by simpa using h x (List.mem_cons_self x rest)),
      ih fun y hy => h y (List.mem_cons_of_mem x hy)]
    rfl

/-- Conversely, a missed merge means no session line carries the id. -/
theorem no_match_of_bumpLine_none {pid : Nat} :
    ∀ l : List V2.CartLine, V2.bumpLine pid l = none → ∀ x ∈ l, x.id ≠ pid := by
  intro l
  induction l with
  | nil => intro _ x hx; cases hx
  | cons y rest ih =>
    intro h x hx
    simp only [V2.bumpLine] at h
    by_cases hy : (y.id == pid) = true
    · rw [if_pos hy] at h
      cases h
    · rw [if_neg hy] at h
      rcases List.mem_cons.mp hx with rfl | hx'
      · simpa using hy
      · exact ih (Option.map_eq_none'.mp h) x hx'

/-- A successful merge keeps the line ids (in order) and never drops a
quantity below its old bound. -/
theorem bumpLine_some_inv {pid : Nat} :
    ∀ (l l' : List V2.CartLine), V2.bumpLine pid l = some l' →
      l'.map (fun x => x.id) = l.map (fun x => x.id) ∧
      ((∀ x ∈ l, 1 ≤ x.quantity) → ∀ x ∈ l', 1 ≤ x.quantity) := by
  intro l
  induction l with
  | nil => intro l' h; cases h
  | cons y rest ih =>
    intro l' h
    simp only [V2.bumpLine] at h
    by_cases hy : (y.id == pid) = true
    · rw [if_pos hy] at h
      injection h with h
      subst h
      refine ⟨rfl, fun hq x hx => ?_⟩
      rcases List.mem_cons.mp hx with rfl | hx'
      · have := hq y (List.mem_cons_self y rest)
        show (1 : Int) ≤ y.quantity + 1
        omega
      · exact hq x (List.mem_cons_of_mem y hx')
    · rw [if_neg hy] at h
      cases hb : V2.bumpLine pid rest with
      | none => rw [hb] at h; cases h
      | some r' =>
        rw [hb] at h
        injection h with h
        subst h
        obtain ⟨hk, hq⟩ := ih r' hb
        refine ⟨by simp only [List.map_cons, hk], fun hql x hx => ?_⟩
        rcases List.mem_cons.mp hx with rfl | hx'
        · exact hql x (List.mem_cons_self ..)
        · exact hq (fun z hz => hql z (List.mem_cons_of_mem y hz)) x hx'

/-- The merge loop distributes over an append whose prefix has no match. -/
theorem bumpLine_append {pid : Nat} (l₁ l₂ : List V2.CartLine)
    (h : ∀ x ∈ l₁, x.id ≠ pid) :
    V2.bumpLine pid (l₁ ++ l₂) = (V2.bumpLine pid l₂).map (fun r => l₁ ++ r) := by
  induction l₁ with
  | nil =>
    simp only [List.nil_append]
    cases hb : V2.bumpLine pid l₂ <;> simp
  | cons y rest ih =>
    simp only [List.cons_append, V2.bumpLine, List.append_eq]
    rw [if_neg (by simpa using h y (List.mem_cons_self ..)),
      ih fun x hx => h x (List.mem_cons_of_mem _ hx)]
    cases V2.bumpLine pid l₂ <;> rfl

/-- The session-cart invariant only reads the cart. -/
theorem inv2_of_cart_eq {st st' : V2.St}
    (h : st'.cart = st.cart) (hi : V2.Inv st) : V2.Inv st' := by
  unfold V2.Inv at hi ⊢
  rw [h]
  exact hi

/-- Product creation never touches the session cart. -/
theorem product_form_cart (uid : Nat) (n d : String) (price : ℚ)
    (c : Option String) (st : V2.St) :
    (V2.product_form uid n d price c st).2.cart = st.cart := by
  simp only [V2.product_form]
  split
  · rfl
  · rfl

/-- Every single request of the session variant preserves the cart
invariant. -/
theorem applyOp2_inv (op : V2.Op) (st : V2.St) (hi : V2.Inv st) :
    V2.Inv (V2.applyOp op st) := by
  cases op with
  | opNew uid n d price c =>
    exact inv2_of_cart_eq (product_form_cart uid n d price c st) hi
  | opAdd pid =>
    simp only [V2.applyOp, V2.add_to_cart]
    cases hfp : V2.findProduct st.products pid with
    | none => exact hi
    | some p =>
      cases hb : V2.bumpLine pid st.cart with
      | some cart' =>
        obtain ⟨hk, hq⟩ := bumpLine_some_inv st.cart cart' hb
        unfold V2.Inv at hi ⊢
        exact ⟨hk ▸ hi.1, hq hi.2⟩
      | none =>
        have hnm := no_match_of_bumpLine_none st.cart hb
        have hpid : p.id = pid := by simpa using List.find?_some hfp
        unfold V2.Inv at hi ⊢
        constructor
        · simp only [List.map_append, List.map_cons, List.map_nil, List.nodup_append]
          refine ⟨hi.1, List.nodup_singleton _, ?_⟩
          intro a ha hmem
          rcases List.mem_map.mp ha with ⟨x, hxl, rfl⟩
          rw [List.mem_singleton] at hmem
          exact hnm x hxl (hmem.trans hpid)
        · intro x hx
          rcases List.mem_append.mp hx with hl | hr
          · exact hi.2 x hl
          · rw [List.mem_singleton] at hr
            subst hr
            exact le_refl 1
  | opRemove pid =>
    simp only [V2.applyOp, V2.remove_from_cart]
    unfold V2.Inv at hi ⊢
    refine ⟨List.Nodup.sublist (List.Sublist.map _ (List.filter_sublist _)) hi.1,
      fun x hx => hi.2 x (List.mem_of_mem_filter hx)⟩
  | opCheckout uid =>
    simp only [V2.applyOp, V2.checkout]
    by_cases hce : st.cart.isEmpty = true
    · rw [if_pos hce]
      exact hi
    · rw [if_neg hce]
      exact ⟨List.nodup_nil, fun x hx => absurd hx (List.not_mem_nil x)⟩

/-- The session-cart invariant is preserved along any request sequence. -/
theorem applyOps2_inv (ops : List V2.Op) :
    ∀ st : V2.St, V2.Inv st → V2.Inv (V2.applyOps ops st) := by
  induction ops with
  | nil => exact fun st hi => hi
  | cons op rest ih => exact fun st hi => ih _ (applyOp2_inv op st hi)

/-! ## C8 — cart invariant and merge-on-repeat-add -/

/-- C8: every sequence of requests preserves the cart invariant (at most
one row per (owner, product) key — one line per product id in the session
variant — and every quantity at least 1); and adding the same product
twice to a cart holding no row for it yields exactly one row with
quantity 2, in both variants. -/
theorem c8_cart_invariant :
    (∀ (ops : List V1.Op) (db : V1.DB), V1.Inv db → V1.Inv (V1.applyOps ops db)) ∧
    (∀ (db : V1.DB) (uid pid : Nat),
       (V1.findProduct db.products pid).isSome = true →
       (∀ i ∈ db.cartItems, ¬(i.user_id = uid ∧ i.product_id = pid)) →
       ((V1.applyOp (.opAdd uid pid) (V1.applyOp (.opAdd uid pid) db)).cartItems.filter
           (fun i => i.user_id == uid && i.product_id == pid))
         = [⟨db.nextCartItemId, uid, pid, 2⟩]) ∧
    (∀ (ops : List V2.Op) (st : V2.St), V2.Inv st → V2.Inv (V2.applyOps ops st)) ∧
    (∀ (st : V2.St) (pid : Nat) (p : V2.Product),
       V2.findProduct st.products pid = some p →
       (∀ l ∈ st.cart, l.id ≠ pid) →
       ((V2.applyOp (.opAdd pid) (V2.applyOp (.opAdd pid) st)).cart.filter
           (fun l => l.id == pid))
         = [⟨p.id, p.name, p.price, 2⟩]) := by
  refine ⟨applyOps_inv, ?_, applyOps2_inv, ?_⟩
  · intro db uid pid hsome hnm
    obtain ⟨p, hp⟩ := Option.isSome_iff_exists.mp hsome
    have h1 := cart_add_fresh db uid pid p hp hnm
    have hb2 : V1.bumpFirst uid pid
        (db.cartItems ++ [⟨db.nextCartItemId, uid, pid, 1⟩]) =
        some (db.cartItems ++ [⟨db.nextCartItemId, uid, pid, 2⟩]) := by
      rw [bumpFirst_append _ _ hnm]
      simp only [V1.bumpFirst]
      rw [if_pos (by simp)]
      rfl
    have h2 := cart_add_bump
      { db with cartItems := db.cartItems ++ [⟨db.nextCartItemId, uid, pid, 1⟩],
                nextCartItemId := db.nextCartItemId + 1 }
      uid pid p (db.cartItems ++ [⟨db.nextCartItemId, uid, pid, 2⟩]) hp hb2
    simp only [V1.applyOp]
    rw [h1]
    dsimp only
    rw [h2]
    dsimp only
    rw [List.filter_append,
      List.filter_eq_nil_iff.mpr (fun i hil => by simpa using hnm i hil)]
    simp only [List.nil_append, List.filter_cons, List.filter_nil]
    rw [if_pos (by simp)]
  · intro st pid p hp hnm
    have hpid : p.id = pid := by simpa using List.find?_some hp
    have hb1 : V2.bumpLine pid st.cart = none := bumpLine_eq_none st.cart hnm
    have h1 : V2.add_to_cart pid st =
        (none, { st with cart := st.cart ++ [⟨p.id, p.name, p.price, 1⟩] }) := by
      simp only [V2.add_to_cart, hp, hb1]
    have hb2 : V2.bumpLine pid (st.cart ++ [⟨p.id, p.name, p.price, 1⟩]) =
        some (st.cart ++ [⟨p.id, p.name, p.price, 2⟩]) := by
      rw [bumpLine_append _ _ hnm]
      simp only [V2.bumpLine]
      rw [if_pos (by simp [hpid])]
      rfl
    have h2 : V2.add_to_cart pid
        { st with cart := st.cart ++ [⟨p.id, p.name, p.price, 1⟩] } =
        (none, { st with cart := st.cart ++ [⟨p.id, p.name, p.price, 2⟩] }) := by
      simp only [V2.add_to_cart, hp, hb2]
    simp only [V2.applyOp]
    rw [h1]
    dsimp only
    rw [h2]
    dsimp only
    rw [List.filter_append,
      List.filter_eq_nil_iff.mpr (fun x hxl => by simpa using hnm x hxl)]
    simp only [List.nil_append, List.filter_cons, List.filter_nil]
    rw [if_pos (by simp [hpid])]

/-- Witness for C8: an add-then-checkout sequence from `dbMixed` keeps the
invariant; adding product 5 twice for user 1 yields one row with quantity
2; likewise for the session variant from `stCart` and `stShop`. -/
theorem c8_cart_invariant_witness :
    V1.Inv (V1.applyOps [V1.Op.opAdd 2 5, V1.Op.opCheckout 2] dbMixed) ∧
    ((V1.applyOp (.opAdd 1 5) (V1.applyOp (.opAdd 1 5) dbMixed)).cartItems.filter
        (fun i => i.user_id == 1 && i.product_id == 5))
      = [⟨3, 1, 5, 2⟩] ∧
    V2.Inv (V2.applyOps [V2.Op.opAdd 7, V2.Op.opCheckout 1] stCart) ∧
    ((V2.applyOp (.opAdd 3) (V2.applyOp (.opAdd 3) stShop)).cart.filter
        (fun l => l.id == 3))
      = [⟨3, "Tote", 4, 2⟩] :=
  ⟨c8_cart_invariant.1 [V1.Op.opAdd 2 5, V1.Op.opCheckout 2] dbMixed
     (by unfold V1.Inv; decide),
   c8_cart_invariant.2.1 dbMixed 1 5 (by decide) (by decide),
   c8_cart_invariant.2.2.1 [V2.Op.opAdd 7, V2.Op.opCheckout 1] stCart
     (by unfold V2.Inv; decide),
   c8_cart_invariant.2.2.2 stShop 3 ⟨3, "Tote", "", 4, "Fashion", 1⟩ rfl
     (fun l hl => absurd hl (List.not_mem_nil l))⟩

/-! ## Session-cart coherence helpers (for C3 and C4) -/

/-- Appending products (creation inserts at the end of the table) never
changes an existing lookup result. -/
theorem findProduct2_append (ps new : List V2.Product) (x : Nat)
    (p : V2.Product) (h : V2.findProduct ps x = some p) :
    V2.findProduct (ps ++ new) x = some p := by
  unfold V2.findProduct at h ⊢
  rw [List.find?_append, h]
  rfl

/-- Every line of a merged cart has the id and price of a line of the old
cart (the merge only bumps a quantity). -/
theorem bumpLine_mem_price {pid : Nat} :
    ∀ (l l' : List V2.CartLine), V2.bumpLine pid l = some l' →
      ∀ x ∈ l', ∃ y ∈ l, x.id = y.id ∧ x.price = y.price := by
  intro l
  induction l with
  | nil => intro l' h; cases h
  | cons y rest ih =>
    intro l' h x hx
    simp only [V2.bumpLine] at h
    by_cases hy : (y.id == pid) = true
    · rw [if_pos hy] at h
      injection h with h
      subst h
      rcases List.mem_cons.mp hx with rfl | hx'
      · exact ⟨y, List.mem_cons_self y rest, rfl, rfl⟩
      · exact ⟨x, List.mem_cons_of_mem y hx', rfl, rfl⟩
    · rw [if_neg hy] at h
      cases hb : V2.bumpLine pid rest with
      | none => rw [hb] at h; cases h
      | some r' =>
        rw [hb] at h
        injection h with h
        subst h
        rcases List.mem_cons.mp hx with rfl | hx'
        · exact ⟨x, List.mem_cons_self x rest, rfl, rfl⟩
        · obtain ⟨z, hz, h1, h2⟩ := ih r' hb x hx'
          exact ⟨z, List.mem_cons_of_mem y hz, h1, h2⟩

/-- Every single request of the session variant preserves cart
coherence. -/
theorem applyOp2_coherent (op : V2.Op) (st : V2.St) (hc : V2.Coherent st) :
    V2.Coherent (V2.applyOp op st) := by
  cases op with
  | opNew uid n d price c =>
    simp only [V2.applyOp, V2.product_form]
    split
    · exact hc
    · intro l hl
      obtain ⟨p, hp, hprice⟩ := hc l hl
      exact ⟨p, findProduct2_append _ _ _ _ hp, hprice⟩
  | opAdd pid =>
    simp only [V2.applyOp, V2.add_to_cart]
    cases hfp : V2.findProduct st.products pid with
    | none => exact hc
    | some p =>
      have hpid : p.id = pid := by simpa using List.find?_some hfp
      cases hb : V2.bumpLine pid st.cart with
      | some cart' =>
        intro l hl
        obtain ⟨y, hy, hid, hprice⟩ := bumpLine_mem_price st.cart cart' hb l hl
        obtain ⟨q, hq, hqp⟩ := hc y hy
        exact ⟨q, by rw [hid]; exact hq, by rw [hprice]; exact hqp⟩
      | none =>
        intro l hl
        rcases List.mem_append.mp hl with hl' | hl'
        · exact hc l hl'
        · rw [List.mem_singleton] at hl'
          subst hl'
          refine ⟨p, ?_, rfl⟩
          show V2.findProduct st.products p.id = some p
          rw [hpid]
          exact hfp
  | opRemove pid =>
    intro l hl
    exact hc l (List.mem_of_mem_filter hl)
  | opCheckout uid =>
    simp only [V2.applyOp, V2.checkout]
    by_cases hce : st.cart.isEmpty = true
    · rw [if_pos hce]
      exact hc
    · rw [if_neg hce]
      intro l hl
      exact absurd hl (List.not_mem_nil l)

/-- Cart coherence is preserved along any request sequence. -/
theorem applyOps2_coherent (ops : List V2.Op) :
    ∀ st : V2.St, V2.Coherent st → V2.Coherent (V2.applyOps ops st) := by
  induction ops with
  | nil => exact fun st hc => hc
  | cons op rest ih => exact fun st hc => ih _ (applyOp2_coherent op st hc)

/-- Every order line the session checkout creates copies its cart line's
product id, stored price and quantity. -/
theorem mkOrderItems2_snapshot (oid : Nat) :
    ∀ (lines : List V2.CartLine) (nid : Nat),
      ∀ oi ∈ V2.mkOrderItems oid nid lines,
        ∃ l ∈ lines, oi.product_id = l.id ∧ oi.price = l.price ∧
          oi.quantity = l.quantity := by
  intro lines
  induction lines with
  | nil => intro nid oi hoi; simp [V2.mkOrderItems] at hoi
  | cons l rest ih =>
    intro nid oi hoi
    simp only [V2.mkOrderItems] at hoi
    rcases List.mem_cons.mp hoi with rfl | hoi
    · exact ⟨l, List.mem_cons_self .., rfl, rfl, rfl⟩
    · obtain ⟨y, hy, h⟩ := ih (nid + 1) oi hoi
      exact ⟨y, List.mem_cons_of_mem l hy, h⟩

/-- No request of the session variant ever modifies an existing order
line: the order-item table only grows at the end. -/
theorem applyOp2_orderItems (op : V2.Op) (st : V2.St) :
    ∃ tail, (V2.applyOp op st).orderItems = st.orderItems ++ tail := by
  cases op with
  | opNew uid n d price c =>
    refine ⟨[], ?_⟩
    rw [List.append_nil]
    simp only [V2.applyOp, V2.product_form]
    split
    · rfl
    · rfl
  | opAdd pid =>
    refine ⟨[], ?_⟩
    rw [List.append_nil]
    simp only [V2.applyOp, V2.add_to_cart]
    cases V2.findProduct st.products pid with
    | none => rfl
    | some p => cases V2.bumpLine pid st.cart <;> rfl
  | opRemove pid =>
    refine ⟨[], ?_⟩
    rw [List.append_nil]
    rfl
  | opCheckout uid =>
    simp only [V2.applyOp, V2.checkout]
    by_cases hce : st.cart.isEmpty = true
    · rw [if_pos hce]
      exact ⟨[], (List.append_nil _).symm⟩
    · rw [if_neg hce]
      exact ⟨_, rfl⟩

/-- `stA` is coherent: its one cart line matches its one product. -/
theorem stA_coherent : V2.Coherent stA := by
  intro l hl
  rw [show stA.cart = [⟨7, "Bottle", 10, 1⟩] from rfl, List.mem_singleton] at hl
  subst hl
  exact ⟨⟨7, "Bottle", "", 10, "Other", 1⟩, rfl, rfl⟩

/-! ## C3 — order lines and product snapshots at checkout -/

/-- C3 counterexample: a session-variant order line stores no title
snapshot at all. `stA` and `stB` are two coherent stores whose only
difference is the product's title ("Bottle" vs "Flask"); both checkouts
succeed, yet they produce identical order-item rows — impossible if the
row snapshotted the product's title as of the moment of checkout. -/
theorem c3_counterexample :
    (V2.checkout 1 stA).1 = none ∧ (V2.checkout 1 stB).1 = none ∧
    (V2.findProduct stA.products 7).map (fun p => p.name) = some "Bottle" ∧
    (V2.findProduct stB.products 7).map (fun p => p.name) = some "Flask" ∧
    (V2.checkout 1 stA).2.orderItems = (V2.checkout 1 stB).2.orderItems :=
  ⟨rfl, rfl, rfl, rfl, rfl⟩

/-- C3 amended: in the user-keyed variant every order line a successful
checkout appends snapshots the title and unit price the product has at
the moment of checkout and copies the cart row's quantity, and neither a
later product edit nor a later product deletion touches any order line.
In the session variant an order line carries no title snapshot; its
stored price is the cart line's add-time snapshot, which on every
coherent (hence every reachable) state equals the product's price at the
moment of checkout — coherence being preserved by every request — and no
request ever modifies an existing order line. -/
theorem c3_snapshot :
    (∀ (db : V1.DB) (uid : Nat) (db' : V1.DB),
       V1.checkout uid db = (none, db') →
       ∃ new, db'.orderItems = db.orderItems ++ new ∧
         ∀ oi ∈ new, ∃ i ∈ V1.cartOf uid db, ∃ p,
           V1.findProduct db.products i.product_id = some p ∧
           oi.product_id = i.product_id ∧ oi.title = p.title ∧
           oi.price_rupees = p.price_rupees ∧ oi.quantity = i.quantity) ∧
    (∀ (db : V1.DB) (uid pid : Nat) (t d c : String) (ps : Option String)
       (img : String),
       (V1.product_edit uid pid t d c ps img db).2.orderItems = db.orderItems) ∧
    (∀ (db : V1.DB) (uid pid : Nat),
       (V1.product_delete uid pid db).2.orderItems = db.orderItems) ∧
    (∀ (st : V2.St) (uid : Nat) (st' : V2.St),
       V2.Coherent st → V2.checkout uid st = (none, st') →
       ∃ new, st'.orderItems = st.orderItems ++ new ∧
         ∀ oi ∈ new, ∃ l ∈ st.cart, ∃ p,
           V2.findProduct st.products l.id = some p ∧
           oi.product_id = l.id ∧ oi.price = p.price ∧
           oi.quantity = l.quantity) ∧
    (∀ (op : V2.Op) (st : V2.St),
       ∃ tail, (V2.applyOp op st).orderItems = st.orderItems ++ tail) ∧
    (∀ (ops : List V2.Op) (st : V2.St),
       V2.Coherent st → V2.Coherent (V2.applyOps ops st)) := by
  refine ⟨?_, ?_, ?_, ?_, applyOp2_orderItems, applyOps2_coherent⟩
  · intro db uid db' h
    simp only [V1.checkout] at h
    split at h
    · exact absurd (congrArg Prod.fst h) (by simp)
    · injection h with h1 h2
      subst h2
      exact ⟨_, rfl, fun oi hoi => mkOrderItems_snapshot db.products db.nextOrderId
        (V1.cartOf uid db) db.nextOrderItemId oi hoi⟩
  · intro db uid pid t d c ps img
    simp only [V1.product_edit]
    split
    · rfl
    · split
      · rfl
      · split
        · rfl
        · rfl
  · intro db uid pid
    simp only [V1.product_delete]
    split
    · rfl
    · split
      · rfl
      · rfl
  · intro st uid st' hc h
    simp only [V2.checkout] at h
    split at h
    · exact absurd (congrArg Prod.fst h) (by simp)
    · injection h with h1 h2
      subst h2
      refine ⟨_, rfl, fun oi hoi => ?_⟩
      obtain ⟨l, hl, hpid, hprice, hqty⟩ :=
        mkOrderItems2_snapshot st.nextOrderId st.cart st.nextOrderItemId oi hoi
      obtain ⟨p, hp, hpp⟩ := hc l hl
      exact ⟨l, hl, p, hp, hpid, by rw [hprice]; exact hpp.symm, hqty⟩

/-- Witness for C3 amended: user 2's checkout from `dbMixed`, an edit and
a delete of product 5, plus a session checkout from the coherent `stA`,
an order-line-immutability instance, and a coherence-preservation
instance. -/
theorem c3_snapshot_witness :
    (∃ new, (V1.checkout 2 dbMixed).2.orderItems = dbMixed.orderItems ++ new ∧
       ∀ oi ∈ new, ∃ i ∈ V1.cartOf 2 dbMixed, ∃ p,
         V1.findProduct dbMixed.products i.product_id = some p ∧
         oi.product_id = i.product_id ∧ oi.title = p.title ∧
         oi.price_rupees = p.price_rupees ∧ oi.quantity = i.quantity) ∧
    (V1.product_edit 1 5 "New" "" "Books" (some "25") "" dbMixed).2.orderItems =
      dbMixed.orderItems ∧
    (V1.product_delete 1 5 dbMixed).2.orderItems = dbMixed.orderItems ∧
    (∃ new, (V2.checkout 1 stA).2.orderItems = stA.orderItems ++ new ∧
       ∀ oi ∈ new, ∃ l ∈ stA.cart, ∃ p,
         V2.findProduct stA.products l.id = some p ∧
         oi.product_id = l.id ∧ oi.price = p.price ∧ oi.quantity = l.quantity) ∧
    (∃ tail, (V2.applyOp (V2.Op.opAdd 7) stA).orderItems =
      stA.orderItems ++ tail) ∧
    V2.Coherent (V2.applyOps [V2.Op.opAdd 7] stA) :=
  ⟨c3_snapshot.1 dbMixed 2 (V1.checkout 2 dbMixed).2 (Prod.ext rfl rfl),
   c3_snapshot.2.1 dbMixed 1 5 "New" "" "Books" (some "25") "",
   c3_snapshot.2.2.1 dbMixed 1 5,
   c3_snapshot.2.2.2.1 stA 1 (V2.checkout 1 stA).2 stA_coherent (Prod.ext rfl rfl),
   c3_snapshot.2.2.2.2.1 (V2.Op.opAdd 7) stA,
   c3_snapshot.2.2.2.2.2 [V2.Op.opAdd 7] stA stA_coherent⟩

/-! ## C4 — the cart total re-prices against the live catalog -/

/-- C4: in the user-keyed variant the cart total equals the sum, over the
owner's rows whose product still exists, of current catalog price ×
quantity — rows whose product was deleted contribute 0 and never raise;
after a successful delete the rows referencing the deleted product
contribute 0; and a successful price edit shifts any user's cart total by
(new price − old price) × quantity held of that product. In the session
variant the cart total likewise equals the sum of current catalog price ×
quantity on every coherent state, and coherence is preserved by every
request sequence and holds for every empty-cart state, hence on every
reachable state. -/
theorem c4_total_reprices :
    (∀ (db : V1.DB) (uid : Nat),
       V1.cart_view_total uid db = V1.specCartTotal uid db) ∧
    (∀ (db : V1.DB) (o pid : Nat) (db' : V1.DB),
       V1.product_delete o pid db = (none, db') →
       ∀ u, V1.cart_view_total u db' =
         ((V1.cartOf u db).map (fun i =>
           if i.product_id = pid then 0
           else match V1.findProduct db.products i.product_id with
                | some p => p.price_rupees * i.quantity
                | none => 0)).sum) ∧
    (∀ (db : V1.DB) (o pid : Nat) (t d c : String) (ps : Option String)
       (img : String) (db' : V1.DB) (p : V1.Product),
       V1.product_edit o pid t d c ps img db = (none, db') →
       V1.findProduct db.products pid = some p →
       ∀ u, V1.cart_view_total u db' =
         V1.cart_view_total u db +
           (V1.parse_int (ps.getD "0") 0 - p.price_rupees) * V1.cartQty u pid db) ∧
    (∀ st : V2.St, V2.Coherent st →
       V2.cart_total st = (st.cart.map (fun l =>
         match V2.findProduct st.products l.id with
         | some p => p.price * (l.quantity : ℚ)
         | none => 0)).sum) ∧
    (∀ (ops : List V2.Op) (st : V2.St),
       V2.Coherent st → V2.Coherent (V2.applyOps ops st)) ∧
    (∀ st : V2.St, st.cart = [] → V2.Coherent st) := by
  refine ⟨fun db uid => cart_view_total_eq_spec uid db, ?_, ?_, ?_,
    applyOps2_coherent, ?_⟩
  · intro db o pid db' h u
    simp only [V1.product_delete] at h
    split at h
    · exact absurd (congrArg Prod.fst h) (by simp)
    · split at h
      · exact absurd (congrArg Prod.fst h) (by simp)
      · injection h with h1 h2
        subst h2
        have hfun : (fun i : V1.CartItem =>
            match V1.findProduct (db.products.filter (fun q => q.id != pid))
                i.product_id with
            | some p => p.price_rupees * i.quantity
            | none => 0)
            = fun i : V1.CartItem =>
                if i.product_id = pid then 0
                else match V1.findProduct db.products i.product_id with
                     | some p => p.price_rupees * i.quantity
                     | none => 0 := by
          funext i
          rw [findProduct_filter_ne]
          by_cases hip : i.product_id = pid
          · rw [if_pos hip, if_pos hip]
          · rw [if_neg hip, if_neg hip]
        rw [cart_view_total_eq_spec, specCartTotal_products, hfun]
  · intro db o pid t d c ps img db' p h hp u
    simp only [V1.product_edit, hp] at h
    split at h
    · exact absurd (congrArg Prod.fst h) (by simp)
    · split at h
      · exact absurd (congrArg Prod.fst h) (by simp)
      · injection h with h1 h2
        subst h2
        rw [cart_view_total_eq_spec u db, cart_view_total_eq_spec,
          specCartTotal_products,
          specTotal_map_update db pid p
            ⟨p.id, pyStrip t, pyStrip d, pyStrip c, V1.parse_int (ps.getD "0") 0,
              (if pyStrip img = "" then none else some (pyStrip img)), p.seller_id⟩
            hp rfl u]
  · intro st hc
    simp only [V2.cart_total]
    refine congrArg List.sum (List.map_congr_left ?_)
    intro l hl
    obtain ⟨p, hp, hprice⟩ := hc l hl
    simp only [hp, hprice]
  · intro st h l hl
    rw [h] at hl
    exact absurd hl (List.not_mem_nil l)

/-- Witness for C4 over `dbMixed` and the coherent `stA`: the view total
matches the spec sum; after user 1 deletes product 5, user 2's row for it
contributes 0; after user 1 re-prices product 5 to 25, user 2's total
shifts by (25 − 10) × 1; the session total of `stA` matches the
current-price sum; coherence survives a remove and holds at the empty
store. -/
theorem c4_total_reprices_witness :
    (V1.cart_view_total 1 dbMixed = V1.specCartTotal 1 dbMixed) ∧
    (V1.cart_view_total 2 (V1.product_delete 1 5 dbMixed).2 =
      ((V1.cartOf 2 dbMixed).map (fun i =>
        if i.product_id = 5 then 0
        else match V1.findProduct dbMixed.products i.product_id with
             | some p => p.price_rupees * i.quantity
             | none => 0)).sum) ∧
    (V1.cart_view_total 2 (V1.product_edit 1 5 "Mug" "" "Other" (some "25") "" dbMixed).2 =
      V1.cart_view_total 2 dbMixed +
        (V1.parse_int "25" 0 - 10) * V1.cartQty 2 5 dbMixed) ∧
    (V2.cart_total stA = (stA.cart.map (fun l =>
       match V2.findProduct stA.products l.id with
       | some p => p.price * (l.quantity : ℚ)
       | none => 0)).sum) ∧
    V2.Coherent (V2.applyOps [V2.Op.opRemove 7] stA) ∧
    V2.Coherent st0 :=
  ⟨c4_total_reprices.1 dbMixed 1,
   c4_total_reprices.2.1 dbMixed 1 5 _ (Prod.ext rfl rfl) 2,
   c4_total_reprices.2.2.1 dbMixed 1 5 "Mug" "" "Other" (some "25") "" _
     ⟨5, "Mug", "", "Other", 10, none, 1⟩ (Prod.ext rfl rfl) (by decide) 2,
   c4_total_reprices.2.2.2.1 stA stA_coherent,
   c4_total_reprices.2.2.2.2.1 [V2.Op.opRemove 7] stA stA_coherent,
   c4_total_reprices.2.2.2.2.2 st0 rfl⟩

end EcoFinds
